import Mathlib

/-!
Verification of the timeline store of `where_was_eye` (file
`src/where_was_eye/timeline_db.py`) against its specification.

Shallow embedding conventions:
* instants are UTC-naive timestamps measured in integer nanoseconds (`Int`),
  matching the `int64` nanosecond representation the code uses for interval
  boundaries and distances;
* a `pd.Interval` with `closed='both'` is a pair of instants;
* Python functions that can raise an uncaught exception are modelled with an
  `Option` result, `none` standing for the raised exception; functions that
  catch all their exceptions internally (such as `_load_cache`, which converts
  them into a `False` return) are modelled with the caught result directly.
-/

namespace WhereWasEye

/-- A closed interval of the `pd.IntervalIndex` (`closed='both'`): boundaries
are UTC-naive instants in integer nanoseconds, as stored by the cache
(`left_ns` / `right_ns`). -/
structure Interval where
  left : Int
  right : Int
deriving DecidableEq, Repr

/-- Index of the first `true` entry of a boolean mask:
`int(np.flatnonzero(mask_np)[0])` in `find_interval_or_nearest`, `none` when
the mask has no `true` entry. -/
def firstTrue : List Bool → Option Nat
  | [] => none
  | true :: _ => some 0
  | false :: bs => (firstTrue bs).map (· + 1)

/-- Minimum of a list of naturals, `none` on the empty list. -/
def listMinimum : List Nat → Option Nat
  | [] => none
  | d :: ds =>
    match listMinimum ds with
    | none => some d
    | some m => some (min d m)

/-- Index of the first occurrence of the minimum of a list:
`int(dist_ns.argmin())` (numpy's `argmin` returns the first occurrence of the
minimum). `none` on the empty list, where numpy raises `ValueError`. -/
def argminFirst : List Nat → Option Nat
  | [] => none
  | d :: ds =>
    match listMinimum ds with
    | none => some 0
    | some m => if d ≤ m then some 0 else (argminFirst ds).map (· + 1)

/-- Membership of `t` in the closed interval `iv`:
`time_idx.contains(t)` for one element of an index built with
`closed='both'` — both endpoints included. -/
def intervalContains (iv : Interval) (t : Int) : Bool :=
  decide (iv.left ≤ t) && decide (t ≤ iv.right)

/-- Distance of `t` to the nearest endpoint of `iv`, in nanoseconds:
`np.minimum(np.abs((t - left).asi8), np.abs((right - t).asi8))` for one
element. -/
def endpointDist (iv : Interval) (t : Int) : Nat :=
  min (t - iv.left).natAbs (iv.right - t).natAbs

/-- `find_interval_or_nearest(time_idx, t)`: the containment mask is scanned
for its first hit; otherwise the first position minimizing the nearest-endpoint
distance is taken. On an empty index the `argmin` of the empty distance array
raises `ValueError`, modelled by `none`. The query instants produced by
`get_location_at_time` are tz-naive, so the `tz_convert` branch is the
identity here. -/
def find_interval_or_nearest (time_idx : List Interval) (t : Int) :
    Option (Nat × Bool) :=
  match firstTrue (time_idx.map (fun iv => intervalContains iv t)) with
  | some pos => some (pos, true)
  | none => (argminFirst (time_idx.map (fun iv => endpointDist iv t))).map
      (fun pos => (pos, false))

/-- One Raw Record of the source file, abstracted to exactly the observations
`_initialize_db` and `get_location_at_time` make of it: membership of the
three marker keys (`'visit' in item`, `'activity' in item`,
`"timelinePath" in item`), the geo-URI strings the query reads at
`item['visit']['topCandidate']['placeLocation']` and
`item['activity']['start']`, and the outcome of
`extract_interval(json.dumps(item))` followed by `to_utc_naive` on each bound
(`extracted = some (s, e)` when both bounds were recovered, already UTC-naive
in nanoseconds and before the `s > e` swap; `none` when either bound is
missing). The text-level extraction itself is modelled separately below. -/
structure RawRecord where
  hasVisit : Bool
  visitGeo : String
  hasActivity : Bool
  activityGeo : String
  hasTimelinePath : Bool
  extracted : Option (Int × Int)
deriving DecidableEq, Repr

/-- The contribution of one record to `all_interval_tuples` in
`_initialize_db`: records with none of the three markers are skipped, records
whose extraction left a bound missing are skipped, and surviving bounds are
swapped when `s > e`. -/
def recordInterval (r : RawRecord) : Option Interval :=
  if !r.hasVisit && !r.hasActivity && !r.hasTimelinePath then none
  else
    match r.extracted with
    | none => none
    | some (s, e) => if s > e then some ⟨e, s⟩ else some ⟨s, e⟩

/-- The Interval Index built by the loop of `_initialize_db`:
`pd.IntervalIndex.from_tuples(all_interval_tuples, closed='both')`. -/
def buildIntervals (recs : List RawRecord) : List Interval :=
  recs.filterMap recordInterval

/-- The contents of the `.timeline_cache` directory: each field is `some`
when the corresponding file exists and is readable (`intervals.npz` with its
two `int64` nanosecond arrays, `all_data.pkl`, and the text of
`source_hash.txt`). -/
structure CacheDir where
  intervals : Option (List Int × List Int)
  all_data : Option (List RawRecord)
  source_hash : Option String
deriving Repr

/-- Python's `str.split(sep)` for a one-character separator: splits at every
occurrence of the separator, keeping empty pieces, and yields `[""]` on the
empty string. -/
def splitOnChar (c : Char) : List Char → List (List Char)
  | [] => [[]]
  | a :: rest =>
    let r := splitOnChar c rest
    if a = c then [] :: r
    else
      match r with
      | [] => [[a]]
      | g :: gs => (a :: g) :: gs

/-- Whitespace as removed by Python's `str.strip()` with no argument. -/
def isPySpace (c : Char) : Bool :=
  c = ' ' ∨ c = '\t' ∨ c = '\n' ∨ c = '\r' ∨ c = '\x0b' ∨ c = '\x0c'

/-- Python's `str.strip()`: drop leading and trailing whitespace. -/
def pyStrip (s : String) : String :=
  String.mk
    (((s.toList.dropWhile isPySpace).reverse.dropWhile isPySpace).reverse)

/-- Python truthiness of an optional string: `None` and `""` are falsy. -/
def pyTruthy : Option String → Bool
  | none => false
  | some s => !(s == "")

/-- `MyTimelineDB._save_cache`: writes `intervals.npz` from
`self._time_idx.left.asi8` / `self._time_idx.right.asi8`, pickles the record
list, and writes the hash marker only under `if source_hash:`. The
precondition that `_time_idx` and `_all_data` are already built is expressed
by taking them as arguments. -/
def _save_cache (time_idx : List Interval) (all_data : List RawRecord)
    (source_hash : Option String) : CacheDir :=
  { intervals := some (time_idx.map Interval.left, time_idx.map Interval.right)
    all_data := some all_data
    source_hash := if pyTruthy source_hash then source_hash else none }

/-- `pd.IntervalIndex.from_arrays(left, right, closed='both')` on two equal
length arrays (the caller checks the lengths). -/
def from_arrays (l r : List Int) : List Interval :=
  (l.zip r).map (fun p => ⟨p.1, p.2⟩)

/-- `MyTimelineDB._load_cache(cache_dir, current_hash)`: returns `none` in
every case the Python function returns `False` (an artifact file missing, a
hash mismatch under `if current_hash and os.path.exists(hash_path)`, or a
deserialization failure such as `from_arrays` on unequal arrays, which the
`except` clause downgrades to `False`); returns the restored index and record
list where the Python function returns `True`. The stored hash is compared
after `.strip()`. -/
def _load_cache (d : CacheDir) (current_hash : Option String) :
    Option (List Interval × List RawRecord) :=
  match d.intervals, d.all_data with
  | some (l, r), some ad =>
    let validated : Bool :=
      if pyTruthy current_hash then
        match d.source_hash, current_hash with
        | some sh, some ch => pyStrip sh == ch
        | _, _ => true
      else true
    if validated then
      if l.length == r.length then some (from_arrays l r, ad) else none
    else none
  | _, _ => none

/-- The source file as `_initialize_db` observes it: `hash` is the result of
`_get_file_hash` (`none` when the file cannot be read, since the exception is
caught and `None` returned), and `parsed` is the result of
`open` + `json.load` (`none` models the raised exception: missing or
unreadable file, or malformed JSON). -/
structure SourceFile where
  hash : Option String
  parsed : Option (List RawRecord)
deriving Repr

/-- Outcome of `MyTimelineDB._initialize_db` (hence of construction). -/
inductive InitResult where
  | ok : List Interval → List RawRecord → InitResult
  | error : InitResult
deriving DecidableEq, Repr

/-- `MyTimelineDB._initialize_db`: try the cache first under the current
source hash; on a miss, parse the source (a parse failure propagates) and
build the index, keeping `self._all_data = all_history` — the full,
unfiltered record list. The trailing `_save_cache` call sits in a
`try/except` and does not affect the constructed store. -/
def _initialize_db (src : SourceFile) (cache : CacheDir) : InitResult :=
  match _load_cache cache src.hash with
  | some (idx, data) => .ok idx data
  | none =>
    match src.parsed with
    | none => .error
    | some all_history => .ok (buildIntervals all_history) all_history

/-- The query result: a latitude/longitude pair, or the not-found sentinel
with both fields null. The coordinate text of the geo URI is kept verbatim
(the `float(...)` conversion adds nothing the claims compare). -/
structure Location where
  latitude : Option String
  longitude : Option String
deriving DecidableEq, Repr

/-- `{"latitude": None, "longitude": None}`. -/
def notFoundLocation : Location := ⟨none, none⟩

/-- `parse_geo_uri`: `geo_string.split(':')[1].split(',')`, reading the first
two comma-separated coordinates as text (the `float(...)` conversion of the
coordinate text is not modelled); an out-of-range index raises (`none`). -/
def parse_geo_uri (geo_string : String) : Option Location :=
  match (splitOnChar ':' geo_string.toList)[1]? with
  | none => none
  | some coordPart =>
    match (splitOnChar ',' coordPart)[0]?, (splitOnChar ',' coordPart)[1]? with
    | some la, some lo => some ⟨some (String.mk la), some (String.mk lo)⟩
    | _, _ => none

/-- `MyTimelineDB.get_location_at_time` on a constructed store, at the
instant level: `t` is the UTC-naive instant of
`pd.Timestamp(year=.., month=.., day=.., hour=.., minute=.., second=0)`.
`none` models an uncaught exception escaping the query
(`find_interval_or_nearest` raising on an empty index, or an out-of-range
record access). -/
def get_location_at_time (time_idx : List Interval)
    (all_data : List RawRecord) (t : Int) : Option Location :=
  match find_interval_or_nearest time_idx t with
  | none => none
  | some (pos, contains) =>
    if !contains then some notFoundLocation
    else
      match all_data.get? pos with
      | none => none
      | some item =>
        if item.hasVisit then parse_geo_uri item.visitGeo
        else if item.hasActivity then parse_geo_uri item.activityGeo
        else some notFoundLocation

/-- A value of the mapping returned by `parse_loose_mapping`: the extraction
only distinguishes string values (`isinstance(obj[k], str)`) from everything
else. -/
inductive PyVal where
  | str : String → PyVal
  | nonStr : PyVal
deriving DecidableEq, Repr

/-- One record text as the three scanners of `extract_interval` observe it:
`mapping` is the result of `parse_loose_mapping` when it yields a dict
(`none` covers both a parse failure and a non-dict result);
`keyvalMatches` are the `KEYVAL_RE.finditer` matches in text order, the key
already lowercased as in `m.group('key').lower()`; `isoHits` are the
`ISO_RE.findall` results in left-to-right order. -/
structure RecText where
  mapping : Option (List (String × PyVal))
  keyvalMatches : List (String × String)
  isoHits : List String
deriving Repr

/-- `k in obj and isinstance(obj[k], str)`: the string value of key `k` of
the parsed mapping, `none` when the key is absent or its value not a
string. -/
def dictGetStr (obj : List (String × PyVal)) (k : String) : Option String :=
  match obj.lookup k with
  | some (PyVal.str s) => some s
  | _ => none

/-- The `for k in [...]` loops of step 1 of `extract_interval`: the first key
of the list that is present with a string value wins. -/
def firstStrOfKeys (obj : List (String × PyVal)) : List String → Option String
  | [] => none
  | k :: ks =>
    match dictGetStr obj k with
    | some s => some s
    | none => firstStrOfKeys obj ks

/-- Python's `a or b` on optional strings: `None` and `""` are falsy. -/
def pyOrStr (a b : Option String) : Option String :=
  match a with
  | some s => if s == "" then b else some s
  | none => b

/-- `found.get(k)` where `found` was filled by iterating the
`KEYVAL_RE.finditer` matches with later matches overwriting earlier ones: the
value of the last match carrying key `k`. -/
def foundGet (ms : List (String × String)) (k : String) : Option String :=
  ((ms.filter (fun m => m.1 == k)).map Prod.snd).getLast?

/-- Step 1 of `extract_interval`: read `start_raw` and `end_raw` from the
parsed mapping under the key priority `startTime`, `start_time`, `start`
(resp. `endTime`, `end_time`, `end`). -/
def extractStep1 (txt : RecText) : Option String × Option String :=
  match txt.mapping with
  | some obj =>
    (firstStrOfKeys obj ["startTime", "start_time", "start"],
     firstStrOfKeys obj ["endTime", "end_time", "end"])
  | none => (none, none)

/-- Step 2 of `extract_interval`: under `if start_raw is None or end_raw is
None`, fill the missing raws from the key/value regex matches through the
Python `or` chains. -/
def extractStep2 (txt : RecText) (sr er : Option String) :
    Option String × Option String :=
  if sr.isNone || er.isNone then
    let f := txt.keyvalMatches
    (pyOrStr sr (pyOrStr (foundGet f "starttime")
        (pyOrStr (foundGet f "start_time") (foundGet f "start"))),
     pyOrStr er (pyOrStr (foundGet f "endtime")
        (pyOrStr (foundGet f "end_time") (foundGet f "end"))))
  else (sr, er)

/-- Step 3 of `extract_interval`: under `if start_raw is None or end_raw is
None`, take the first bare ISO hit as start and the second as end, each only
when still missing. -/
def extractStep3 (txt : RecText) (sr er : Option String) :
    Option String × Option String :=
  if sr.isNone || er.isNone then
    match txt.isoHits with
    | [] => (sr, er)
    | h0 :: rest =>
      (if sr.isNone then some h0 else sr,
       if er.isNone then
         match rest with
         | [] => er
         | h1 :: _ => some h1
       else er)
  else (sr, er)

/-- Steps 1 and 2 of `extract_interval` chained. -/
def extractStep12 (txt : RecText) : Option String × Option String :=
  let p := extractStep1 txt
  extractStep2 txt p.1 p.2

/-- `extract_interval` at the raw-string level: the `(start_raw, end_raw)`
pair the three fallback steps select, the pair also returned in `meta`. The
final instants of the Python function are `parse_dt_loose` of these raws
(with a falsy raw giving `None`). -/
def extract_interval_raw (txt : RecText) : Option String × Option String :=
  let p := extractStep12 txt
  extractStep3 txt p.1 p.2

/-- A `pd.Timestamp` for the purposes of `to_utc_naive`: the wall-clock
reading in nanoseconds, and the UTC offset of its timezone (`none` for a
tz-naive timestamp). -/
structure PyTimestamp where
  wall : Int
  tzOffset : Option Int
deriving DecidableEq, Repr

/-- `ts.tz_localize('UTC').tz_localize(None)`: tagging a naive timestamp as
UTC and dropping the tag keeps the wall-clock reading. -/
def localizeUtcThenDrop (x : PyTimestamp) : PyTimestamp := ⟨x.wall, none⟩

/-- The UTC instant a timestamp denotes: its wall-clock reading minus its UTC
offset (a naive timestamp read as UTC). -/
def instantOf (x : PyTimestamp) : Int := x.wall - x.tzOffset.getD 0

/-- `to_utc_naive(x, assume_utc_for_naive)`: a naive timestamp is localized
to UTC and the tag dropped (or kept as-is when the flag is off; the Python
parameter defaults to `True`, and every caller in the repository uses that
default); a tz-aware timestamp is converted to UTC (`tz_convert('UTC')`
rewrites the wall clock to the UTC instant) and the tag dropped. -/
def to_utc_naive (x : PyTimestamp) (assume_utc_for_naive : Bool) :
    PyTimestamp :=
  match x.tzOffset with
  | none => if assume_utc_for_naive then localizeUtcThenDrop x else x
  | some off => ⟨x.wall - off, none⟩

/-- A visit record with top-candidate place location
`geo:37.7749,-122.4194` and extracted interval `[100, 200]` ns. -/
def sampleVisitRecord : RawRecord :=
  { hasVisit := true
    visitGeo := "geo:37.7749,-122.4194"
    hasActivity := false
    activityGeo := ""
    hasTimelinePath := false
    extracted := some (100, 200) }

/-- A record with none of the three marker keys: `_initialize_db` skips it
(`continue`) even though an interval could be extracted from it. -/
def skippedRecord : RawRecord :=
  { hasVisit := false
    visitGeo := ""
    hasActivity := false
    activityGeo := ""
    hasTimelinePath := false
    extracted := some (0, 10) }

/-- A source whose record array is `[skippedRecord, sampleVisitRecord]`. -/
def skewSource : List RawRecord := [skippedRecord, sampleVisitRecord]

/-- An empty cache directory: none of the three files exist. -/
def emptyCacheDir : CacheDir := ⟨none, none, none⟩

/-- A cache directory holding both artifact files but no hash marker file. -/
def cacheDirNoMarker : CacheDir :=
  ⟨some ([0], [10]), some [sampleVisitRecord], none⟩

/-- A complete cache directory: both artifacts and a hash marker. -/
def cacheDirFull : CacheDir :=
  ⟨some ([0], [10]), some [sampleVisitRecord], some "cafef00d"⟩

/-- A source file that is missing or unreadable: the hash computation fails
(caught, `None`) and `open` + `json.load` raises. -/
def missingSource : SourceFile := ⟨none, none⟩

/-- A readable source file whose content is the empty JSON array `[]`. -/
def emptyArraySource : SourceFile := ⟨some "cafef00d", some []⟩

/-- A record text whose `parse_loose_mapping` yields
`{"startTime": "MAPSTART", "endTime": "MAPEND"}` while the raw text also
contains two bare ISO timestamps. -/
def mappingAndIsoText : RecText :=
  { mapping := some [("startTime", PyVal.str "MAPSTART"),
                     ("endTime", PyVal.str "MAPEND")]
    keyvalMatches := []
    isoHits := ["2021-01-15T15:30:00Z", "2021-01-15T16:30:00Z"] }

theorem listMinimum_eq_none_iff (l : List Nat) :
    listMinimum l = none ↔ l = [] := by
  cases l with
  | nil => simp [listMinimum]
  | cons d ds =>
    simp only [listMinimum]
    cases h : listMinimum ds <;> simp

theorem listMinimum_spec (l : List Nat) (m : Nat) (h : listMinimum l = some m) :
    m ∈ l ∧ ∀ x ∈ l, m ≤ x := by
  induction l generalizing m with
  | nil => simp [listMinimum] at h
  | cons d ds ih =>
    simp only [listMinimum] at h
    cases hds : listMinimum ds with
    | none =>
      rw [hds] at h
      have hnil : ds = [] := (listMinimum_eq_none_iff ds).mp hds
      subst hnil
      simp only [Option.some.injEq] at h
      subst h
      simp
    | some m0 =>
      rw [hds] at h
      simp only [Option.some.injEq] at h
      subst h
      rcases ih m0 hds with ⟨hmem, hle⟩
      constructor
      · by_cases hdm : d ≤ m0
        · rw [Nat.min_eq_left hdm]; exact List.mem_cons_self d ds
        · rw [Nat.min_eq_right (Nat.le_of_not_le hdm)]
          exact List.mem_cons_of_mem d hmem
      · intro x hx
        rcases List.mem_cons.mp hx with h1 | h1
        · rw [h1]; exact Nat.min_le_left _ _
        · exact le_trans (Nat.min_le_right _ _) (hle x h1)

theorem firstTrue_eq_none_iff (l : List Bool) :
    firstTrue l = none ↔ ∀ b ∈ l, b = false := by
  induction l with
  | nil => simp [firstTrue]
  | cons b bs ih =>
    cases b with
    | true => simp [firstTrue, List.forall_mem_cons]
    | false =>
      simp [firstTrue, Option.map_eq_none', List.forall_mem_cons, ih]

theorem firstTrue_spec (l : List Bool) (i : Nat) (h : firstTrue l = some i) :
    l[i]? = some true ∧ ∀ j, j < i → l[j]? = some false := by
  induction l generalizing i with
  | nil => simp [firstTrue] at h
  | cons b bs ih =>
    cases b with
    | true =>
      simp only [firstTrue, Option.some.injEq] at h
      subst h
      exact ⟨by simp, fun j hj => absurd hj (Nat.not_lt_zero j)⟩
    | false =>
      simp only [firstTrue] at h
      rcases Option.map_eq_some'.mp h with ⟨i0, hi0, hadd⟩
      subst hadd
      rcases ih i0 hi0 with ⟨hget, hbefore⟩
      refine ⟨by simpa using hget, ?_⟩
      intro j hj
      cases j with
      | zero => simp
      | succ j0 =>
        have : j0 < i0 := Nat.lt_of_succ_lt_succ hj
        simpa using hbefore j0 this

theorem argminFirst_isSome (l : List Nat) (h : l ≠ []) :
    (argminFirst l).isSome := by
  induction l with
  | nil => exact absurd rfl h
  | cons d ds ih =>
    simp only [argminFirst]
    cases hds : listMinimum ds with
    | none => simp
    | some m =>
      by_cases hd : d ≤ m
      · simp [hd]
      · have hne : ds ≠ [] := by
          intro hnil
          rw [hnil] at hds
          simp [listMinimum] at hds
        have hsome := ih hne
        simp only [if_neg hd]
        cases hAF : argminFirst ds with
        | none => rw [hAF] at hsome; simp at hsome
        | some i => simp

theorem argminFirst_spec (l : List Nat) (i : Nat) (h : argminFirst l = some i) :
    ∃ m, l[i]? = some m ∧ (∀ x ∈ l, m ≤ x) ∧
      ∀ j y, j < i → l[j]? = some y → m < y := by
  induction l generalizing i with
  | nil => simp [argminFirst] at h
  | cons d ds ih =>
    simp only [argminFirst] at h
    cases hds : listMinimum ds with
    | none =>
      rw [hds] at h
      have hnil : ds = [] := (listMinimum_eq_none_iff ds).mp hds
      subst hnil
      simp only [Option.some.injEq] at h
      subst h
      refine ⟨d, by simp, ?_, fun j y hj => absurd hj (Nat.not_lt_zero j)⟩
      intro x hx
      rcases List.mem_cons.mp hx with h1 | h1
      · rw [h1]
      · simp at h1
    | some m0 =>
      rw [hds] at h
      rcases listMinimum_spec ds m0 hds with ⟨hmem0, hle0⟩
      by_cases hd : d ≤ m0
      · simp only [if_pos hd, Option.some.injEq] at h
        subst h
        refine ⟨d, by simp, ?_, fun j y hj => absurd hj (Nat.not_lt_zero j)⟩
        intro x hx
        rcases List.mem_cons.mp hx with h1 | h1
        · rw [h1]
        · exact le_trans hd (hle0 x h1)
      · simp only [if_neg hd] at h
        rcases Option.map_eq_some'.mp h with ⟨i0, hi0, hadd⟩
        subst hadd
        rcases ih i0 hi0 with ⟨m, hget, hmin, hfirst⟩
        have hmlt : m < d := by
          have hm0 : m ≤ m0 := hmin m0 hmem0
          exact lt_of_le_of_lt hm0 (Nat.lt_of_not_le hd)
        refine ⟨m, by simpa using hget, ?_, ?_⟩
        · intro x hx
          rcases List.mem_cons.mp hx with h1 | h1
          · rw [h1]; exact le_of_lt hmlt
          · exact hmin x h1
        · intro j y hj hy
          cases j with
          | zero =>
            simp only [List.getElem?_cons_zero, Option.some.injEq] at hy
            subst hy
            exact hmlt
          | succ j0 =>
            have hj0 : j0 < i0 := Nat.lt_of_succ_lt_succ hj
            simp only [List.getElem?_cons_succ] at hy
            exact hfirst j0 y hj0 hy

/-- Claim C4: for every query instant `t` and every built Interval Index,
when at least one interval's closed range `[start, end]` contains `t`
(endpoints included), `find_interval_or_nearest` returns `exact = true`
together with the position of the lowest-index such interval; when several
overlapping intervals contain `t`, the first in source order wins. -/
theorem claim_C4_first_containing (idx : List Interval) (t : Int) (p : Nat)
    (ivp : Interval) (hp : idx[p]? = some ivp)
    (hl : ivp.left ≤ t) (hr : t ≤ ivp.right) :
    ∃ q ivq, find_interval_or_nearest idx t = some (q, true) ∧
      idx[q]? = some ivq ∧ ivq.left ≤ t ∧ t ≤ ivq.right ∧
      ∀ (j : Nat) (ivj : Interval), j < q → idx[j]? = some ivj →
        ¬(ivj.left ≤ t ∧ t ≤ ivj.right) := by
  set mask := idx.map (fun iv => intervalContains iv t) with hmask
  have hmp : mask[p]? = some true := by
    rw [hmask, List.getElem?_map, hp]
    simp [intervalContains, hl, hr]
  have hne : firstTrue mask ≠ none := by
    intro h0
    have hall := (firstTrue_eq_none_iff mask).mp h0
    have hmem : (true : Bool) ∈ mask := List.getElem?_mem hmp
    cases hall true hmem
  cases hF : firstTrue mask with
  | none => exact absurd hF hne
  | some q =>
    rcases firstTrue_spec mask q hF with ⟨hq, hbefore⟩
    rw [hmask, List.getElem?_map] at hq
    rcases Option.map_eq_some'.mp hq with ⟨ivq, hivq, hcont⟩
    have hcont2 : ivq.left ≤ t ∧ t ≤ ivq.right := by
      simpa [intervalContains] using hcont
    refine ⟨q, ivq, ?_, hivq, hcont2.1, hcont2.2, ?_⟩
    · unfold find_interval_or_nearest
      rw [← hmask, hF]
    · intro j ivj hj hivj hc
      have hmj := hbefore j hj
      rw [hmask, List.getElem?_map, hivj] at hmj
      simp [intervalContains, hc.1, hc.2] at hmj

/-- Claim C5: for every query instant `t` contained in no interval of a
non-empty Interval Index, `find_interval_or_nearest` returns `exact = false`
together with the position minimizing, over all intervals, the smaller of
`|t - left|` and `|t - right|`; among several minimizers the lowest index
is returned. -/
theorem claim_C5_nearest_on_miss (idx : List Interval) (t : Int)
    (hne : idx ≠ [])
    (hnc : ∀ (j : Nat) (ivj : Interval), idx[j]? = some ivj →
      ¬(ivj.left ≤ t ∧ t ≤ ivj.right)) :
    ∃ q ivq, find_interval_or_nearest idx t = some (q, false) ∧
      idx[q]? = some ivq ∧
      (∀ (j : Nat) (ivj : Interval), idx[j]? = some ivj →
        min (t - ivq.left).natAbs (ivq.right - t).natAbs ≤
          min (t - ivj.left).natAbs (ivj.right - t).natAbs) ∧
      ∀ (j : Nat) (ivj : Interval), j < q → idx[j]? = some ivj →
        min (t - ivq.left).natAbs (ivq.right - t).natAbs <
          min (t - ivj.left).natAbs (ivj.right - t).natAbs := by
  set mask := idx.map (fun iv => intervalContains iv t) with hmask
  set dists := idx.map (fun iv => endpointDist iv t) with hdists
  have hmaskF : firstTrue mask = none := by
    rw [firstTrue_eq_none_iff]
    intro b hb
    rw [hmask] at hb
    rcases List.mem_map.mp hb with ⟨iv, hivmem, hfb⟩
    rcases List.mem_iff_getElem?.mp hivmem with ⟨j, hj⟩
    have := hnc j iv hj
    cases b with
    | false => rfl
    | true =>
      exfalso
      apply this
      have : intervalContains iv t = true := hfb
      simpa [intervalContains] using this
  have hdne : dists ≠ [] := by
    rw [hdists]
    simpa [List.map_eq_nil_iff] using hne
  have hsome := argminFirst_isSome dists hdne
  cases hA : argminFirst dists with
  | none => rw [hA] at hsome; cases hsome
  | some q =>
    rcases argminFirst_spec dists q hA with ⟨m, hq, hmin, hfirst⟩
    rw [hdists, List.getElem?_map] at hq
    rcases Option.map_eq_some'.mp hq with ⟨ivq, hivq, hd⟩
    refine ⟨q, ivq, ?_, hivq, ?_, ?_⟩
    · unfold find_interval_or_nearest
      rw [← hmask, hmaskF, ← hdists, hA]
      rfl
    · intro j ivj hivj
      have hmem : endpointDist ivj t ∈ dists := by
        rw [hdists]
        exact List.mem_map.mpr ⟨ivj, List.getElem?_mem hivj, rfl⟩
      have := hmin _ hmem
      rw [← hd] at this
      simpa [endpointDist] using this
    · intro j ivj hj hivj
      have hdj : dists[j]? = some (endpointDist ivj t) := by
        rw [hdists, List.getElem?_map, hivj]
        rfl
      have := hfirst j (endpointDist ivj t) hj hdj
      rw [← hd] at this
      simpa [endpointDist] using this

/-- Witness for claim C4: instant 7 lies in both intervals of
`[[0,10], [5,20]]`; the first position is returned. -/
theorem claim_C4_witness :
    ∃ q ivq,
      find_interval_or_nearest [⟨0, 10⟩, ⟨5, 20⟩] 7 = some (q, true) ∧
      ([⟨0, 10⟩, ⟨5, 20⟩] : List Interval)[q]? = some ivq ∧
      ivq.left ≤ 7 ∧ 7 ≤ ivq.right ∧
      ∀ (j : Nat) (ivj : Interval), j < q →
        ([⟨0, 10⟩, ⟨5, 20⟩] : List Interval)[j]? = some ivj →
        ¬(ivj.left ≤ 7 ∧ 7 ≤ ivj.right) :=
  claim_C4_first_containing [⟨0, 10⟩, ⟨5, 20⟩] 7 0 ⟨0, 10⟩ rfl
    (by decide) (by decide)

/-- Witness for claim C5: instant 11 lies in neither interval of
`[[0,10], [13,20]]`; the first interval is nearer (distance 1 vs 2). -/
theorem claim_C5_witness :
    ∃ q ivq,
      find_interval_or_nearest [⟨0, 10⟩, ⟨13, 20⟩] 11 = some (q, false) ∧
      ([⟨0, 10⟩, ⟨13, 20⟩] : List Interval)[q]? = some ivq ∧
      (∀ (j : Nat) (ivj : Interval),
        ([⟨0, 10⟩, ⟨13, 20⟩] : List Interval)[j]? = some ivj →
        min ((11 : Int) - ivq.left).natAbs (ivq.right - 11).natAbs ≤
          min ((11 : Int) - ivj.left).natAbs (ivj.right - 11).natAbs) ∧
      ∀ (j : Nat) (ivj : Interval), j < q →
        ([⟨0, 10⟩, ⟨13, 20⟩] : List Interval)[j]? = some ivj →
        min ((11 : Int) - ivq.left).natAbs (ivq.right - 11).natAbs <
          min ((11 : Int) - ivj.left).natAbs (ivj.right - 11).natAbs :=
  claim_C5_nearest_on_miss [⟨0, 10⟩, ⟨13, 20⟩] 11 (by decide)
    (by
      intro j ivj hj
      rcases j with _ | _ | j
      · cases hj; decide
      · cases hj; decide
      · simp at hj)

/-- Claim C1 (evaluation at the failing input): building the store from
`skewSource = [skippedRecord, sampleVisitRecord]` produces one interval, the
one extracted from the record at source position 1, while `_all_data` keeps
the full source list, so the record stored at position 0 is `skippedRecord`,
which produced no interval: the claimed 1:1 positional correspondence between
the Interval Index and the Record List fails as soon as one record is
skipped. -/
theorem claim_C1_positional_skew :
    _initialize_db ⟨some "cafef00d", some skewSource⟩ emptyCacheDir =
      InitResult.ok [⟨100, 200⟩] skewSource ∧
    skewSource[0]? = some skippedRecord ∧
    recordInterval skippedRecord = none ∧
    recordInterval sampleVisitRecord = some ⟨100, 200⟩ := by decide

/-- Claim C2 (evaluation at the failing input): construction from the empty
source array succeeds with an empty Interval Index and record list, but then
every query raises (the `argmin` of the empty distance array), modelled by
`none` — it does not return the not-found Location. -/
theorem claim_C2_empty_index_query_raises :
    _initialize_db emptyArraySource emptyCacheDir = InitResult.ok [] [] ∧
    ∀ t : Int, get_location_at_time [] [] t = none := by
  exact ⟨rfl, fun t => rfl⟩

/-- Claim C3 (counterexample): `_load_cache` reports the cache valid although
the hash marker file is absent — only the two artifact files exist in
`cacheDirNoMarker`, the expected hash is supplied, and the load still
succeeds, refuting "valid only if all three artifacts are present and the
stored hash equals the expected hash". -/
theorem claim_C3_counterexample :
    cacheDirNoMarker.source_hash = none ∧
    _load_cache cacheDirNoMarker (some "deadbeef") =
      some ([⟨0, 10⟩], [sampleVisitRecord]) := by decide

/-- Claim C3 (amended): with an expected hash supplied, `_load_cache` reports
the cache valid iff both artifact files are present, the interval boundary
arrays have equal lengths, and — only when the hash marker file also
exists — its stored (stripped) hash equals the expected hash; in every other
case it returns false without raising. The marker file's absence does not
invalidate the cache. -/
theorem claim_C3_amended (d : CacheDir) (ch : String) (hch : ch ≠ "") :
    (_load_cache d (some ch)).isSome = true ↔
      ((∃ l r, d.intervals = some (l, r) ∧ l.length = r.length) ∧
       d.all_data.isSome = true ∧
       (∀ sh, d.source_hash = some sh → pyStrip sh = ch)) := by
  obtain ⟨di, da, dsh⟩ := d
  cases di with
  | none => simp [_load_cache]
  | some lr =>
    obtain ⟨l, r⟩ := lr
    cases da with
    | none => simp [_load_cache]
    | some ad =>
      cases dsh with
      | none =>
        by_cases hlen : l.length = r.length
        · simp only [_load_cache, pyTruthy, hch, hlen]
          simp [hlen]
          exact ⟨l, r, ⟨rfl, rfl⟩, hlen⟩
        · simp [_load_cache, pyTruthy, hch, hlen]
      | some sh =>
        by_cases hmatch : pyStrip sh = ch
        · by_cases hlen : l.length = r.length
          · simp [_load_cache, pyTruthy, hch, hmatch, hlen]
            exact ⟨l, r, ⟨rfl, rfl⟩, hlen⟩
          · simp [_load_cache, pyTruthy, hch, hmatch, hlen]
        · simp [_load_cache, pyTruthy, hch, hmatch]

/-- Witness for the amended claim C3 at a concrete complete cache
directory. -/
theorem claim_C3_witness :
    (_load_cache cacheDirFull (some "cafef00d")).isSome = true := by
  refine (claim_C3_amended cacheDirFull "cafef00d" (by decide)).mpr ?_
  refine ⟨⟨[0], [10], rfl, rfl⟩, rfl, ?_⟩
  intro sh hsh
  cases hsh
  decide

/-- The cache round-trip core: `from_arrays` applied to the two boundary
arrays written by `_save_cache` rebuilds the original index. -/
theorem from_arrays_left_right (time_idx : List Interval) :
    from_arrays (time_idx.map Interval.left) (time_idx.map Interval.right) =
      time_idx := by
  induction time_idx with
  | nil => rfl
  | cons iv rest ih =>
    show (⟨iv.left, iv.right⟩ : Interval) ::
        from_arrays (rest.map Interval.left) (rest.map Interval.right) =
      iv :: rest
    rw [ih]

/-- Claim C6: saving the cache from a built store and loading it back under
the same source hash reconstructs the Interval Index exactly (same length,
same per-position boundaries) together with the record list. The hypothesis
`pyStrip h = h` records that a SHA-256 hex digest carries no surrounding
whitespace, so the `.strip()` on the stored marker is the identity. -/
theorem claim_C6_cache_roundtrip (time_idx : List Interval)
    (all_data : List RawRecord) (h : String) (hs : pyStrip h = h) :
    _load_cache (_save_cache time_idx all_data (some h)) (some h) =
      some (time_idx, all_data) := by
  by_cases he : h = ""
  · subst he
    simp [_save_cache, _load_cache, pyTruthy, from_arrays_left_right]
  · simp [_save_cache, _load_cache, pyTruthy, he, hs, from_arrays_left_right]

/-- Witness for claim C6 at a concrete index, record list and hash. -/
theorem claim_C6_witness :
    _load_cache
        (_save_cache [⟨1, 2⟩, ⟨30, 40⟩] [sampleVisitRecord] (some "cafef00d"))
        (some "cafef00d") =
      some ([⟨1, 2⟩, ⟨30, 40⟩], [sampleVisitRecord]) :=
  claim_C6_cache_roundtrip [⟨1, 2⟩, ⟨30, 40⟩] [sampleVisitRecord] "cafef00d"
    (by decide)

/-- Projection of step 3: the raw start is kept when present, else the first
bare ISO hit. -/
theorem extractStep3_fst (txt : RecText) (sr er : Option String) :
    (extractStep3 txt sr er).1 =
      if sr.isSome then sr else txt.isoHits[0]? := by
  cases sr <;> cases er <;>
    (cases hhits : txt.isoHits with
      | nil => simp [extractStep3, hhits]
      | cons h0 rest => cases rest <;> simp [extractStep3, hhits])

/-- Projection of step 3: the raw end is kept when present, else the second
bare ISO hit. -/
theorem extractStep3_snd (txt : RecText) (sr er : Option String) :
    (extractStep3 txt sr er).2 =
      if er.isSome then er else txt.isoHits[1]? := by
  cases sr <;> cases er <;>
    (cases hhits : txt.isoHits with
      | nil => simp [extractStep3, hhits]
      | cons h0 rest => cases rest <;> simp [extractStep3, hhits])

/-- Claim C7: when the record text parses as a mapping with string values
under `startTime` and `endTime`, those values are taken as the raw start and
end, bare ISO timestamps in the text notwithstanding; and the bare ISO scan
(first hit as start, second as end) only fills whichever of start/end is
still missing after the mapping and key/value-pattern steps. -/
theorem claim_C7_mapping_precedence :
    (∀ (txt : RecText) (obj : List (String × PyVal)) (s e : String),
        txt.mapping = some obj →
        dictGetStr obj "startTime" = some s →
        dictGetStr obj "endTime" = some e →
        extract_interval_raw txt = (some s, some e)) ∧
    (∀ txt : RecText,
        ((extractStep12 txt).1.isSome →
          (extract_interval_raw txt).1 = (extractStep12 txt).1) ∧
        ((extractStep12 txt).1 = none →
          (extract_interval_raw txt).1 = txt.isoHits[0]?) ∧
        ((extractStep12 txt).2.isSome →
          (extract_interval_raw txt).2 = (extractStep12 txt).2) ∧
        ((extractStep12 txt).2 = none →
          (extract_interval_raw txt).2 = txt.isoHits[1]?)) := by
  constructor
  · intro txt obj s e hm hs he
    have h1 : extractStep1 txt = (some s, some e) := by
      simp only [extractStep1, hm, firstStrOfKeys, hs, he]
    have h12 : extractStep12 txt = (some s, some e) := by
      simp only [extractStep12, h1, extractStep2, Option.isNone_some,
        Bool.or_self, Bool.false_eq_true, if_false]
    simp only [extract_interval_raw, h12, extractStep3, Option.isNone_some,
      Bool.or_self, Bool.false_eq_true, if_false]
  · intro txt
    rcases h12 : extractStep12 txt with ⟨sr, er⟩
    have hraw : extract_interval_raw txt = extractStep3 txt sr er := by
      simp only [extract_interval_raw, h12]
    refine ⟨?_, ?_, ?_, ?_⟩
    · intro hsome
      rw [hraw, extractStep3_fst]
      cases sr with
      | none => simp at hsome
      | some s => rfl
    · intro hnone
      have hsr : sr = none := hnone
      subst hsr
      rw [hraw, extractStep3_fst]
      rfl
    · intro hsome
      rw [hraw, extractStep3_snd]
      cases er with
      | none => simp at hsome
      | some e => rfl
    · intro hnone
      have her : er = none := hnone
      subst her
      rw [hraw, extractStep3_snd]
      rfl

/-- Witness for claim C7 at a concrete record text carrying both a structured
mapping and two bare ISO timestamps. -/
theorem claim_C7_witness :
    extract_interval_raw mappingAndIsoText =
      (some "MAPSTART", some "MAPEND") :=
  claim_C7_mapping_precedence.1 mappingAndIsoText _ "MAPSTART" "MAPEND"
    rfl rfl rfl

/-- Claim C8 (evaluation at the failing input): the query instant 150 falls
inside the single indexed interval `[100, 200]`, extracted from the visit
record `sampleVisitRecord`, yet `get_location_at_time` returns the not-found
Location instead of that record's top-candidate place location, because the
matched position 0 is read from the unfiltered record list, where it holds
the skipped record. -/
theorem claim_C8_query_reads_wrong_record :
    buildIntervals skewSource = [⟨100, 200⟩] ∧
    recordInterval sampleVisitRecord = some ⟨100, 200⟩ ∧
    ((100 : Int) ≤ 150 ∧ (150 : Int) ≤ 200) ∧
    parse_geo_uri sampleVisitRecord.visitGeo =
      some ⟨some "37.7749", some "-122.4194"⟩ ∧
    get_location_at_time (buildIntervals skewSource) skewSource 150 =
      some notFoundLocation := by decide

/-- Claim C9 (counterexample): construction of a store whose source file is
missing (hash computation fails, `json.load` would raise) nevertheless
succeeds when a loadable cache entry sits in the cache directory — the
unavailable hash disables validation and the cache is accepted, so the error
is not propagated. -/
theorem claim_C9_counterexample :
    missingSource.hash = none ∧ missingSource.parsed = none ∧
    _initialize_db missingSource cacheDirFull =
      InitResult.ok [⟨0, 10⟩] [sampleVisitRecord] := by decide

/-- Claim C9 (amended): whenever the cache load reports a miss — in
particular when the cache directory is empty or absent — construction with a
missing/unreadable source or malformed JSON propagates the error to the
caller and never yields an empty or partial store. -/
theorem claim_C9_error_when_cache_misses (src : SourceFile) (cache : CacheDir)
    (hmiss : _load_cache cache src.hash = none) (hparse : src.parsed = none) :
    _initialize_db src cache = InitResult.error := by
  unfold _initialize_db
  rw [hmiss, hparse]

/-- Witness for the amended claim C9: a missing source with an empty cache
directory makes construction fail. -/
theorem claim_C9_witness :
    _initialize_db missingSource emptyCacheDir = InitResult.error :=
  claim_C9_error_when_cache_misses missingSource emptyCacheDir rfl rfl

/-- Claim C10: with `assume_utc_for_naive = true` (the default),
`to_utc_naive` is the identity on tz-naive timestamps; a tz-aware timestamp
is mapped to its UTC instant with the timezone tag dropped, so two aware
timestamps denoting the same instant map to equal canonical timestamps. -/
theorem claim_C10_to_utc_naive_canonical :
    (∀ x : PyTimestamp, x.tzOffset = none → to_utc_naive x true = x) ∧
    (∀ x : PyTimestamp, x.tzOffset.isSome →
      to_utc_naive x true = ⟨instantOf x, none⟩) ∧
    (∀ x y : PyTimestamp, x.tzOffset.isSome → y.tzOffset.isSome →
      instantOf x = instantOf y → to_utc_naive x true = to_utc_naive y true) := by
  have haware : ∀ x : PyTimestamp, x.tzOffset.isSome →
      to_utc_naive x true = ⟨instantOf x, none⟩ := by
    intro x hx
    obtain ⟨w, tz⟩ := x
    cases tz with
    | none => cases hx
    | some off => simp [to_utc_naive, instantOf]
  refine ⟨?_, haware, ?_⟩
  · intro x hx
    obtain ⟨w, tz⟩ := x
    cases tz with
    | none => rfl
    | some off => cases hx
  · intro x y hx hy hinst
    rw [haware x hx, haware y hy, hinst]

/-- Witness for claim C10 at concrete naive and aware timestamps. -/
theorem claim_C10_witness :
    to_utc_naive ⟨5, none⟩ true = ⟨5, none⟩ ∧
    to_utc_naive ⟨7, some 2⟩ true = to_utc_naive ⟨6, some 1⟩ true :=
  ⟨claim_C10_to_utc_naive_canonical.1 ⟨5, none⟩ rfl,
   claim_C10_to_utc_naive_canonical.2.2 ⟨7, some 2⟩ ⟨6, some 1⟩ rfl rfl
     (by decide)⟩

end WhereWasEye
